import Mathlib

/-!
Verification of the TissueMAPS processing core against its design
specification.  The development shallowly embeds the relevant parts of
`tmlib/mosaic.py`, `tmlib/metaconfig/api.py` and `tmlib/models/file.py`
as executable Lean definitions and proves (or refutes) the specification
claims about them.  Each definition's doc comment names the source lines
it is translated from.
-/

/-- Python values as far as the argument checks in `tmlib/mosaic.py` inspect
them: `isinstance(dx, int)` distinguishes integers from every other value
(floats, strings, `None`, ...), which are collapsed into `nonInt`. -/
inductive PyVal where
  | intVal (n : Int)
  | nonInt
  deriving DecidableEq

/-- Python exceptions raised by the stitching code, by exception class.
Messages are kept so that, e.g., the cycle and channel `MetadataError`
conditions stay distinguishable, exactly as in the source. -/
inductive StitchError where
  | valueError (msg : String)
  | metadataError (msg : String)
  | typeError (msg : String)
  | attributeError
  | indexError
  deriving DecidableEq

/-- Whether a Python value passes `isinstance(v, int) and v >= 0`. -/
def validDisplacement : PyVal → Bool
  | .intVal n => decide (0 ≤ n)
  | .nonInt => false

/-- The integer content of a Python value known to be an `int`. -/
def pyInt : PyVal → Int
  | .intVal n => n
  | .nonInt => 0

/-- The argument check opening both `Mosaic.create` (mosaic.py:177-180) and
`Collage.create_from_images` (mosaic.py:305-308): `dx` and `dy` must be
non-negative Python `int`s, otherwise `ValueError` is raised, `dx` checked
first. -/
def checkDisplacements (dx dy : PyVal) : Except StitchError Unit :=
  if validDisplacement dx = false then
    .error (.valueError "\"dx\" has to be a positive integer value")
  else if validDisplacement dy = false then
    .error (.valueError "\"dy\" has to be a positive integer value")
  else .ok ()

/-- Modelled from the spec: stand-in for `Vips.Image`, which is external to
the repository.  A plane is its pixel grid: height, width, and a pixel
lookup. -/
structure PixelPlane where
  height : Nat
  width : Nat
  pix : Nat → Nat → Int

/-- Modelled from the spec: `Vips.Image.join(other, 'horizontal', shim=s)` as
used by `Mosaic.create` (mosaic.py:214-215, 219) and described by the spec's
stitch dimension law — the second plane is appended at x-offset
`width + shim`, so the result is `w1 + shim + w2` wide (a negative shim
overlaps the planes, the right plane winning on the overlap) and as tall as
the taller input. -/
def join_horizontal (a b : PixelPlane) (shim : Int) : PixelPlane where
  height := max a.height b.height
  width := ((a.width : Int) + shim + (b.width : Int)).toNat
  pix := fun y x =>
    if x < ((a.width : Int) + shim).toNat then a.pix y x
    else b.pix y (x - ((a.width : Int) + shim).toNat)

/-- Modelled from the spec: `Vips.Image.join(other, 'vertical', shim=s)` as
used by `Mosaic.create` (mosaic.py:229-230, 234); the transpose of
`join_horizontal`. -/
def join_vertical (a b : PixelPlane) (shim : Int) : PixelPlane where
  height := ((a.height : Int) + shim + (b.height : Int)).toNat
  width := max a.width b.width
  pix := fun y x =>
    if y < ((a.height : Int) + shim).toNat then a.pix y x
    else b.pix (y - ((a.height : Int) + shim).toNat) x

/-- A channel image as `Mosaic.create` consumes it: the well-relative grid
position recorded in its metadata (`im.metadata.well_position_y` and
`im.metadata.well_position_x`) plus its pixel plane (`im.pixels.array`). -/
structure ChannelImage where
  well_position_y : Nat
  well_position_x : Nat
  plane : PixelPlane

namespace Mosaic

/-- mosaic.py:137: the first component of `np.max(coordinates, axis=0)` —
the largest zero-based row index recorded among the images. -/
def maxRow (images : List ChannelImage) : Nat :=
  (images.map (fun im => im.well_position_y)).foldr max 0

/-- mosaic.py:137: the second component of `np.max(coordinates, axis=0)`. -/
def maxCol (images : List ChannelImage) : Nat :=
  (images.map (fun im => im.well_position_x)).foldr max 0

/-- mosaic.py:131-141, `Mosaic._build_image_grid`: a
`(maxRow+1) x (maxCol+1)` object array whose cell `(y, x)` receives the
image recording that well position; cells no image occupies keep numpy's
`None` (`none` here), and when several images record the same position the
one assigned last (largest list index) wins, mirroring the assignment
loop. -/
def gridCell (images : List ChannelImage) (r c : Nat) : Option ChannelImage :=
  images.foldl
    (fun acc im =>
      if im.well_position_y = r ∧ im.well_position_x = c then some im else acc)
    none

/-- mosaic.py:193-203: within one grid row every cell is dereferenced in turn
(`img.metadata.name`, `img.pixels.array`); an empty cell holds `None`, and
the attribute access raises `AttributeError`, modelled by `none`. -/
def derefRow : List (Option ChannelImage) → Option (List PixelPlane)
  | [] => some []
  | none :: _ => none
  | some im :: rest => (derefRow rest).map (fun ps => im.plane :: ps)

/-- The row-by-row dereference of the whole grid. -/
def derefGrid : List (List (Option ChannelImage)) → Option (List (List PixelPlane))
  | [] => some []
  | row :: rest =>
    match derefRow row with
    | none => none
    | some ps => (derefGrid rest).map (fun rs => ps :: rs)

/-- mosaic.py:207-220: inside a row, images are joined pairwise and the pairs
reduced left-to-right with `join(..., 'horizontal', shim=-dx)`; the pairing
merely reassociates the same left-to-right join sequence, modelled as a left
fold. -/
def joinRow (dx : Int) : List PixelPlane → PixelPlane
  | [] => { height := 0, width := 0, pix := fun _ _ => 0 }
  | p :: ps => ps.foldl (fun a b => join_horizontal a b (-dx)) p

/-- mosaic.py:222-235: the row strips are reduced top-to-bottom with
`join(..., 'vertical', shim=-dy)`, with the same pairing scheme. -/
def joinRows (dy : Int) : List PixelPlane → PixelPlane
  | [] => { height := 0, width := 0, pix := fun _ _ => 0 }
  | p :: ps => ps.foldl (fun a b => join_vertical a b (-dy)) p

/-- The grid of `Mosaic._build_image_grid` as the row-major list of its
cells: `grid.shape` is `(maxRow+1, maxCol+1)` (mosaic.py:138) and
`Mosaic.create` iterates `r` and `c` over exactly these ranges
(mosaic.py:188-193). -/
def buildGrid (images : List ChannelImage) : List (List (Option ChannelImage)) :=
  (List.range (maxRow images + 1)).map
    (fun r => (List.range (maxCol images + 1)).map (fun c => gridCell images r c))

/-- mosaic.py:144-237, `Mosaic.create`: validate `dx`/`dy`; build the image
grid — `np.max` over the empty coordinate list of an empty `images` raises
`ValueError` (numpy's empty-reduction error); dereference every grid cell in
row-major order; join each row horizontally with shim `-dx` and the rows
vertically with shim `-dy`.  The optional illumination correction and
alignment both default to off in the source and are not modelled (no claim
concerns them). -/
def create (images : List ChannelImage) (dx dy : PyVal) :
    Except StitchError PixelPlane :=
  match checkDisplacements dx dy with
  | .error e => .error e
  | .ok _ =>
    match images with
    | [] => .error (.valueError
        "zero-size array to reduction operation maximum which has no identity")
    | _ :: _ =>
      match derefGrid (buildGrid images) with
      | none => .error .attributeError
      | some planeRows =>
        .ok (joinRows (pyInt dy) (planeRows.map (fun ps => joinRow (pyInt dx) ps)))

end Mosaic

/-- A channel image as `Collage.create_from_images` consumes it: the metadata
fields its consistency checks inspect (`im.metadata.cycle_name`,
`im.metadata.channel_name`, `im.pixels.dtype`) plus the pixel dimensions.
Pixel content is irrelevant to every claim about the collage and is
abstracted away. -/
structure CollageImage where
  cycle_name : String
  channel_name : String
  dtype : String
  height : Nat
  width : Nat
  deriving DecidableEq

namespace Collage

/-- mosaic.py:254-266, `Collage._build_image_grid`:
`dim = int(np.ceil(len(images) / 2))` where `/` is Python-2 integer
division, so the `ceil` acts on an already-truncated integer and
`dim = len(images) / 2` rounded down.  A `dim x dim` object array is then
filled row-major with `images[count]` while `count < len(images)`: cell
`(i, j)` holds image number `i*dim + j` when that index exists, images
beyond the first `dim*dim` are left out, and cells beyond `len(images)`
keep `None`. -/
def build_image_grid (images : List α) : List (List (Option α)) :=
  let dim := images.length / 2
  (List.range dim).map (fun i => (List.range dim).map (fun j => images.get? (i * dim + j)))

/-- Steps of pixel composition in `Collage.create_from_images`
(mosaic.py:320-373): spacer-image creation, per-cell zero padding, and the
horizontal/vertical merges. -/
inductive CollageStep where
  | spacerCreated
  | imagePadded
  | imagesMerged
  deriving DecidableEq

/-- mosaic.py:320-373, the pixel-composition tail of `create_from_images`:
`image_dims` is read off every image (`IndexError` on an empty list), the
column and row spacer images are created, and every grid cell is padded and
merged.  A `None` cell — present whenever `dim * dim > len(images)` —
raises `AttributeError` at `img.pixels.dimensions` before being padded.
Pixel content is abstracted; the returned trace records which composition
steps ran. -/
def compose (images : List CollageImage) (dx dy : Int) :
    List CollageStep × Except StitchError Unit :=
  match images with
  | [] => ([], .error .indexError)
  | _ :: _ =>
    let cells := (build_image_grid images).flatten
    let pads := (cells.takeWhile Option.isSome).map (fun _ => CollageStep.imagePadded)
    let _ := (dx, dy)
    if cells.all Option.isSome then
      (CollageStep.spacerCreated :: CollageStep.spacerCreated ::
        (pads ++ cells.map (fun _ => CollageStep.imagesMerged)), .ok ())
    else
      (CollageStep.spacerCreated :: CollageStep.spacerCreated :: pads,
       .error .attributeError)

/-- mosaic.py:268-373, `Collage.create_from_images`: the `dx`/`dy` argument
check, then the cycle, channel and element-type consistency checks in that
order (mosaic.py:310-318) with the source's exception classes and messages
(`len(set(..)) > 1` is the number of distinct values, `List.dedup` here),
and only then pixel composition.  The first component is the trace of
composition steps performed. -/
def create_from_images (images : List CollageImage) (dx dy : PyVal) :
    List CollageStep × Except StitchError Unit :=
  match checkDisplacements dx dy with
  | .error e => ([], .error e)
  | .ok _ =>
    if ((images.map (fun im => im.cycle_name)).dedup).length > 1 then
      ([], .error (.metadataError "All images must be of the same cycle"))
    else if ((images.map (fun im => im.channel_name)).dedup).length > 1 then
      ([], .error (.metadataError "All images must be of the same channel"))
    else if ((images.map (fun im => im.dtype)).dedup).length > 1 then
      ([], .error (.typeError "All images must have the same type"))
    else
      compose images (pyInt dx) (pyInt dy)

end Collage

/-- The logical tile key: the columns of the `UniqueConstraint` on
`pyramid_tile_files` (models/file.py:570-574). -/
structure TileKey where
  level : Nat
  row : Nat
  column : Nat
  channel_layer_id : Nat
  deriving DecidableEq

/-- A `pyramid_tile_files` row (models/file.py:575-586, 594-616): the
filename, the tile-group bucket and the key columns. -/
structure PyramidTileFile where
  name : String
  group : Nat
  level : Nat
  row : Nat
  column : Nat
  channel_layer_id : Nat
  deriving DecidableEq

/-- The (level, row, column, channel-layer) key of a tile row. -/
def PyramidTileFile.key (t : PyramidTileFile) : TileKey :=
  { level := t.level, row := t.row, column := t.column,
    channel_layer_id := t.channel_layer_id }

/-- A filesystem path as `PyramidTileFile.location` composes it
(models/file.py:652-657): `os.path.join(self.channel_layer.location,
'TileGroup%d' % self.group, self.name)`.  The three joined components are
kept separate, the `TileGroup%d` directory identified by the group number
it embeds (that formatting is injective in `group`). -/
structure TilePath where
  base : String
  tileGroup : Nat
  name : String
  deriving DecidableEq

/-- models/file.py:652-657, the `location` property. -/
def PyramidTileFile.location (base : String) (t : PyramidTileFile) : TilePath :=
  { base := base, tileGroup := t.group, name := t.name }

/-- Writing through `ImageWriter` replaces whatever the same path held; the
stored 8-bit plane is abstracted to its payload. -/
def fsWrite (fs : List (TilePath × Nat)) (p : TilePath) (data : Nat) :
    List (TilePath × Nat) :=
  (p, data) :: fs.filter (fun q => !(q.1 == p))

/-- Reading through `ImageReader`: the payload at the path, if ever written. -/
def fsRead (fs : List (TilePath × Nat)) (p : TilePath) : Option Nat :=
  (fs.find? (fun q => q.1 == p)).map (fun q => q.2)

/-- models/file.py:640-649, `PyramidTileFile.put`: write the tile's pixels at
`self.location`. -/
def PyramidTileFile.put (base : String) (t : PyramidTileFile)
    (fs : List (TilePath × Nat)) (data : Nat) : List (TilePath × Nat) :=
  fsWrite fs (t.location base) data

/-- models/file.py:618-637, `PyramidTileFile.get`: read the pixels back from
`self.location`; a path never written is a not-found failure (`none`). -/
def PyramidTileFile.get (base : String) (t : PyramidTileFile)
    (fs : List (TilePath × Nat)) : Option Nat :=
  fsRead fs (t.location base)

/-- models/file.py:570-574: the database
`UniqueConstraint('level', 'row', 'column', 'channel_layer_id')` — no two
rows of the table share that key. -/
def uniqueKeyConstraint (rows : List PyramidTileFile) : Prop :=
  rows.Pairwise (fun a b => a.key ≠ b.key)

/-- An upload directory as `create_job_descriptions` reads it
(metaconfig/api.py:102-148): its directories and file lists. -/
structure Upload where
  dir : String
  image_dir : String
  additional_dir : String
  ome_xml_dir : String
  image_files : List String
  additional_files : List String
  ome_xml_files : List String
  image_metadata_file : String
  image_mapper_file : String
  deriving DecidableEq

/-- `os.path.join` on the two-component paths the job descriptions build. -/
def pjoin (a b : String) : String := a ++ "/" ++ b

/-- One run-phase job description (metaconfig/api.py:103-130): the upload's
raw files as inputs, its per-upload metadata and mapper files as outputs.
The remaining `kwargs` copied into each description carry stage parameters
and are not modelled. -/
structure RunDescription where
  id : Nat
  uploaded_image_files : List String
  uploaded_additional_files : List String
  ome_xml_files : List String
  metadata_files : List String
  mapper_files : List String
  deriving DecidableEq

/-- The collect-phase job description (metaconfig/api.py:132-148). -/
structure CollectDescription where
  metadata_files : List String
  mapper_files : List String
  cycle_dirs : List String
  deriving DecidableEq

/-- The declared output files of a run description. -/
def RunDescription.outputs (r : RunDescription) : List String :=
  r.metadata_files ++ r.mapper_files

/-- The declared input files of the collect description. -/
def CollectDescription.inputs (c : CollectDescription) : List String :=
  c.metadata_files ++ c.mapper_files

/-- metaconfig/api.py:103-130: the run description built for upload number
`i` (ids are one-based: `'id': i+1`). -/
def mkRunDescription (i : Nat) (u : Upload) : RunDescription where
  id := i + 1
  uploaded_image_files := u.image_files.map (fun f => pjoin u.image_dir f)
  uploaded_additional_files := u.additional_files.map (fun f => pjoin u.additional_dir f)
  ome_xml_files := u.ome_xml_files.map (fun f => pjoin u.ome_xml_dir f)
  metadata_files := [pjoin u.dir u.image_metadata_file]
  mapper_files := [pjoin u.dir u.image_mapper_file]

/-- metaconfig/api.py:100-148: the run descriptions (one per upload, in
order) and the single collect description, whose inputs list the same
per-upload metadata and mapper files across all uploads and whose output is
the experiment's cycles directory. -/
def job_descriptions_body (uploads : List Upload) (cyclesDir : String) :
    List RunDescription × CollectDescription :=
  (uploads.enum.map (fun p => mkRunDescription p.1 p.2),
   { metadata_files := uploads.map (fun u => pjoin u.dir u.image_metadata_file),
     mapper_files := uploads.map (fun u => pjoin u.dir u.image_mapper_file),
     cycle_dirs := [cyclesDir] })

/-- metaconfig/api.py:94-99: an unrecognized non-default format fails fast. -/
inductive ConfigError where
  | notSupportedError
  deriving DecidableEq

/-- metaconfig/api.py:80-150, `create_job_descriptions`: the format guard,
then the job descriptions. -/
def create_job_descriptions (fmt : String) (supportedFormats : List String)
    (uploads : List Upload) (cyclesDir : String) :
    Except ConfigError (List RunDescription × CollectDescription) :=
  if fmt ≠ "default" ∧ fmt ∉ supportedFormats then
    .error .notSupportedError
  else
    .ok (job_descriptions_body uploads cyclesDir)

/-- metaconfig/api.py:308-309: `unique_tpoints = set(tpoints)`.  CPython
iterates a set in an implementation-defined order; it is modelled as
first-occurrence order, and no theorem below depends on that choice. -/
def distinctFirstSeen (ts : List Nat) : List Nat :=
  ts.foldl (fun acc t => if t ∈ acc then acc else acc ++ [t]) []

/-- metaconfig/api.py:314-425: the images of one upload's distinct time
points are assigned to the cycles at consecutive indices starting from the
running `cycle_count` (api.py:320-323 reuses the cycle object already at
that index or appends a fresh one; the index used is `cycle_count` either
way).  Records `(upload index, time point, assigned cycle index)`. -/
def assignUploadCycles (u cc : Nat) : List Nat → List (Nat × Nat × Nat)
  | [] => []
  | t :: ts => (u, t, cc) :: assignUploadCycles u (cc + 1) ts

/-- metaconfig/api.py:284-425: `cycle_count` starts at 0 and is threaded
through the uploads in order, incremented once per (upload, distinct time
point) pair and never reset or looked up by time point. -/
def collectCyclesGo (u cc : Nat) : List (List Nat) → List (Nat × Nat × Nat)
  | [] => []
  | ts :: rest =>
      assignUploadCycles u cc (distinctFirstSeen ts) ++
        collectCyclesGo (u + 1) (cc + (distinctFirstSeen ts).length) rest

/-- The cycle-index bookkeeping of `collect_job_output`
(metaconfig/api.py:284-425), given each upload's per-image time-point list. -/
def collect_cycle_assignments (uploadTpoints : List (List Nat)) :
    List (Nat × Nat × Nat) :=
  collectCyclesGo 0 0 uploadTpoints

/-- metaconfig/api.py:291-301: the per-time-point image lookup built from the
well samples.  Original image index `i` (parsed out of the `Image:%d`
reference of sample `i`) carries time point `tps[i]`; for a fixed time point
`t` the images carrying it are renumbered zero-based in traversal order
(`fm_lut[ref_ix] = im_count`, api.py:343-394).  The result maps original
index to new cycle-scoped index. -/
def fmLut (tps : List Nat) (t : Nat) : List (Nat × Nat) :=
  (((tps.enum).filter (fun p => p.2 == t)).map Prod.fst).enum.map
    (fun p => (p.2, p.1))

/-- Python dict lookup `fm_lut[k]`: `none` is a `KeyError`. -/
def lutLookup (lut : List (Nat × Nat)) (k : Nat) : Option Nat :=
  (lut.find? (fun p => p.1 == k)).map Prod.snd

/-- metaconfig/api.py:406-423: while processing time point `t`, every entry
of the upload's file mapper is rewritten — `ix = fm_lut[element.ref_index]`
raises `KeyError` whenever the entry's reference index does not belong to
`t` — and the rewritten entry carries the cycle-relative index `ix`; it is
tagged here with the cycle it was rewritten for.  `none` is the
`KeyError`. -/
def rewriteMapperForTpoint (cycleIdx : Nat) (tps : List Nat) (refs : List Nat)
    (t : Nat) : Option (List (Nat × Nat)) :=
  refs.mapM (fun r => (lutLookup (fmLut tps t) r).map (fun ix => (cycleIdx, ix)))

/-- One upload's full mapper rewrite: one pass over the whole mapper per
distinct time point (metaconfig/api.py:314-425), at consecutive cycle
indices starting from the running `cycle_count`. -/
def rewriteUploadMapperGo (cc : Nat) (tps refs : List Nat) :
    List Nat → Option (List (Nat × Nat))
  | [] => some []
  | t :: ds => do
      let e ← rewriteMapperForTpoint cc tps refs t
      let rest ← rewriteUploadMapperGo (cc + 1) tps refs ds
      pure (e ++ rest)

/-- The rewritten mapper entries one upload contributes, starting at cycle
index `cc`. -/
def rewriteUploadMapper (cc : Nat) (tps refs : List Nat) :
    Option (List (Nat × Nat)) :=
  rewriteUploadMapperGo cc tps refs (distinctFirstSeen tps)

/-- metaconfig/api.py:284-431, the mapper side of `collect_job_output`: the
global mapper list accumulates the rewritten entries upload by upload, and
after each upload the accumulated list so far is written to
`uploads_dir/image_mapper_file` (api.py:427-431 sit inside the upload loop,
after that upload's time-point loop).  The result is the sequence of
successive durable writes; `none` is a propagated `KeyError`.  Each upload
is given as (per-image time points, mapper reference indices). -/
def collectMapperWritesGo (cc : Nat) (acc : List (Nat × Nat)) :
    List (List Nat × List Nat) → Option (List (List (Nat × Nat)))
  | [] => some []
  | (tps, refs) :: rest => do
      let e ← rewriteUploadMapper cc tps refs
      let writes ← collectMapperWritesGo (cc + (distinctFirstSeen tps).length)
        (acc ++ e) rest
      pure ((acc ++ e) :: writes)

/-- The sequence of durable mapper writes `collect_job_output` performs. -/
def collect_mapper_writes (uploads : List (List Nat × List Nat)) :
    Option (List (List (Nat × Nat))) :=
  collectMapperWritesGo 0 [] uploads

/-- The per-upload rewrite results on the success path, each upload's
contribution listed separately. -/
def perUploadRewrites (cc : Nat) :
    List (List Nat × List Nat) → Option (List (List (Nat × Nat)))
  | [] => some []
  | (tps, refs) :: rest => do
      let e ← rewriteUploadMapper cc tps refs
      let es ← perUploadRewrites (cc + (distinctFirstSeen tps).length) rest
      pure (e :: es)

/-- The list of cumulative concatenations of a list of blocks: entry `k` is
the concatenation of blocks `0..k`. -/
def prefixJoins : List (List α) → List (List α)
  | [] => []
  | e :: es => e :: (prefixJoins es).map (fun l => e ++ l)

/-- Exceptions inside `run_job`; the `except` clause at
metaconfig/api.py:228 catches `MetadataError` only, every other exception
class propagates. -/
inductive JobException where
  | metadataError (msg : String)
  | otherException (msg : String)
  deriving DecidableEq

/-- metaconfig/api.py:224-237:
`determine_grid_coordinates_from_stage_positions` is attempted first; on
`MetadataError` — and only on `MetadataError` — the fallback
`determine_grid_coordinates_from_layout` is invoked instead and its outcome,
success or failure, becomes the step's outcome.  The two arguments are the
outcomes of the two strategies; the grid itself is abstracted to a `Nat`
token. -/
def determine_grid_coordinates (stage layout : Except JobException Nat) :
    Except JobException Nat :=
  match stage with
  | .ok g => .ok g
  | .error (.metadataError _) => layout
  | .error e => .error e

/-- Whether an `Except` computation succeeded. -/
def isOkResult {ε α : Type} : Except ε α → Bool
  | .ok _ => true
  | .error _ => false

/-! ### Helper lemmas -/

theorem assignUploadCycles_map_cycle (u : Nat) :
    ∀ (ts : List Nat) (cc : Nat),
      (assignUploadCycles u cc ts).map (fun a => a.2.2) = List.range' cc ts.length
  | [], _ => rfl
  | t :: ts, cc => by
      simp [assignUploadCycles, List.range'_succ,
        assignUploadCycles_map_cycle u ts (cc + 1)]

theorem collectCyclesGo_map_cycle :
    ∀ (l : List (List Nat)) (u cc : Nat),
      (collectCyclesGo u cc l).map (fun a => a.2.2) =
        List.range' cc ((l.map (fun ts => (distinctFirstSeen ts).length)).sum)
  | [], _, _ => rfl
  | ts :: rest, u, cc => by
      rw [collectCyclesGo, List.map_append, assignUploadCycles_map_cycle,
        collectCyclesGo_map_cycle rest (u + 1) (cc + (distinctFirstSeen ts).length),
        List.map_cons, List.sum_cons, List.range'_append_1,
        Nat.add_comm ((rest.map (fun ts => (distinctFirstSeen ts).length)).sum)
          ((distinctFirstSeen ts).length)]

theorem range_grid_flatten {α : Type} (f : Nat → α) (b : Nat) :
    ∀ a : Nat,
      ((List.range a).map (fun i => (List.range b).map (fun j => f (i * b + j)))).flatten =
        (List.range (a * b)).map f
  | 0 => by simp
  | n + 1 => by
      rw [List.range_succ, List.map_append, List.flatten_append,
        range_grid_flatten f b n, Nat.succ_mul, List.range_add, List.map_append,
        List.map_map]
      simp [Function.comp]

theorem pairwise_key_unique :
    ∀ rows : List PyramidTileFile, uniqueKeyConstraint rows →
      ∀ r1 ∈ rows, ∀ r2 ∈ rows, r1.key = r2.key → r1 = r2
  | [], _, r1, h1, _, _, _ => absurd h1 (List.not_mem_nil r1)
  | a :: l, hc, r1, h1, r2, h2, hkey => by
      rcases List.pairwise_cons.mp hc with ⟨ha, hl⟩
      rcases List.mem_cons.mp h1 with rfl | h1'
      · rcases List.mem_cons.mp h2 with rfl | h2'
        · rfl
        · exact absurd hkey (ha r2 h2')
      · rcases List.mem_cons.mp h2 with rfl | h2'
        · exact absurd hkey.symm (ha r1 h1')
        · exact pairwise_key_unique l hl r1 h1' r2 h2' hkey

theorem fsRead_write_self (fs : List (TilePath × Nat)) (p : TilePath) (d : Nat) :
    fsRead (fsWrite fs p d) p = some d := by
  simp [fsRead, fsWrite, List.find?_cons]

theorem find?_filter_ne (q p : TilePath) (h : q ≠ p) :
    ∀ fs : List (TilePath × Nat),
      (fs.filter (fun e => !(e.1 == p))).find? (fun e => e.1 == q) =
        fs.find? (fun e => e.1 == q) := by
  intro fs
  induction fs with
  | nil => rfl
  | cons e fs ih =>
      by_cases hp : e.1 = p
      · have h1 : (!(e.1 == p)) = false := by simp [hp]
        have h2 : (e.1 == q) = false := by
          rw [hp]
          simpa using Ne.symm h
        simp only [List.filter_cons, h1, if_neg Bool.false_ne_true,
          List.find?_cons, h2, ih]
      · have h1 : (!(e.1 == p)) = true := by simp [hp]
        by_cases hq : e.1 = q
        · have h2 : (e.1 == q) = true := by simp [hq]
          simp [List.filter_cons, h1, List.find?_cons, h2]
        · have h2 : (e.1 == q) = false := by simp [hq]
          simp [List.filter_cons, h1, List.find?_cons, h2, ih]

theorem fsRead_write_other (fs : List (TilePath × Nat)) (p q : TilePath)
    (d : Nat) (h : q ≠ p) : fsRead (fsWrite fs p d) q = fsRead fs q := by
  have hpq : (p == q) = false := by simpa using Ne.symm h
  simp only [fsRead, fsWrite, List.find?_cons, hpq, find?_filter_ne q p h fs]

theorem map_pair_perm_flatMap {α β : Type} (f g : α → β) :
    ∀ l : List α, (l.map f ++ l.map g).Perm (l.flatMap (fun x => [f x, g x]))
  | [] => by simp
  | a :: l => by
      simp only [List.map_cons, List.flatMap_cons, List.cons_append,
        List.nil_append]
      refine List.Perm.cons (f a) ?_
      exact List.perm_middle.trans ((map_pair_perm_flatMap f g l).cons (g a))

theorem runs_flatMap_outputs :
    ∀ (uploads : List Upload) (n : Nat),
      ((uploads.enumFrom n).map (fun p => mkRunDescription p.1 p.2)).flatMap
          RunDescription.outputs =
        uploads.flatMap (fun u =>
          [pjoin u.dir u.image_metadata_file, pjoin u.dir u.image_mapper_file])
  | [], _ => rfl
  | u :: us, n => by
      rw [List.enumFrom_cons, List.map_cons, List.flatMap_cons,
        runs_flatMap_outputs us (n + 1), List.flatMap_cons]
      rfl

theorem prefixJoins_length {α : Type} :
    ∀ es : List (List α), (prefixJoins es).length = es.length
  | [] => rfl
  | e :: es => by simp [prefixJoins, prefixJoins_length es]

theorem perUploadRewrites_length :
    ∀ (l : List (List Nat × List Nat)) (cc : Nat) (es : List (List (Nat × Nat))),
      perUploadRewrites cc l = some es → es.length = l.length
  | [], cc, es, h => by
      simp [perUploadRewrites] at h
      simp [← h]
  | (tps, refs) :: rest, cc, es, h => by
      rcases he : rewriteUploadMapper cc tps refs with _ | e
      · simp [perUploadRewrites, he] at h
      · rcases hes : perUploadRewrites (cc + (distinctFirstSeen tps).length) rest
          with _ | es'
        · simp [perUploadRewrites, he, hes] at h
        · have hlen := perUploadRewrites_length rest
            (cc + (distinctFirstSeen tps).length) es' hes
          simp [perUploadRewrites, he, hes] at h
          simp [← h, hlen]

theorem prefixJoins_getElem? {α : Type} :
    ∀ (es : List (List α)) (k : Nat), k < es.length →
      (prefixJoins es)[k]? = some ((es.take (k + 1)).flatten)
  | [], k, h => absurd h (Nat.not_lt_zero k)
  | e :: es, 0, _ => by simp [prefixJoins]
  | e :: es, k + 1, h => by
      have ih := prefixJoins_getElem? es k (by simpa using h)
      simp [prefixJoins, List.getElem?_map, ih]

theorem collectMapperWritesGo_eq :
    ∀ (l : List (List Nat × List Nat)) (cc : Nat) (acc : List (Nat × Nat))
      (es : List (List (Nat × Nat))),
      perUploadRewrites cc l = some es →
      collectMapperWritesGo cc acc l =
        some ((prefixJoins es).map (fun w => acc ++ w))
  | [], cc, acc, es, h => by
      simp [perUploadRewrites] at h
      subst h
      rfl
  | (tps, refs) :: rest, cc, acc, es, h => by
      rcases he : rewriteUploadMapper cc tps refs with _ | e
      · simp [perUploadRewrites, he] at h
      · rcases hes : perUploadRewrites (cc + (distinctFirstSeen tps).length) rest
          with _ | es'
        · simp [perUploadRewrites, he, hes] at h
        · have ih := collectMapperWritesGo_eq rest
            (cc + (distinctFirstSeen tps).length) (acc ++ e) es' hes
          have hes2 : es = e :: es' := by
            simpa [perUploadRewrites, he, hes] using h.symm
          subst hes2
          simp [collectMapperWritesGo, he, ih, prefixJoins,
            List.map_map, Function.comp, List.append_assoc]

theorem gridCell_foldl_ne_none (r c : Nat) :
    ∀ (l : List ChannelImage) (acc : Option ChannelImage),
      (acc ≠ none ∨ ∃ im ∈ l, im.well_position_y = r ∧ im.well_position_x = c) →
      l.foldl
        (fun acc im =>
          if im.well_position_y = r ∧ im.well_position_x = c then some im else acc)
        acc ≠ none
  | [], acc, h => by
      rcases h with h | ⟨im, him, _⟩
      · exact h
      · exact absurd him (List.not_mem_nil im)
  | im0 :: l, acc, h => by
      rw [List.foldl_cons]
      by_cases h0 : im0.well_position_y = r ∧ im0.well_position_x = c
      · exact gridCell_foldl_ne_none r c l _ (Or.inl (by simp [h0]))
      · refine gridCell_foldl_ne_none r c l _ ?_
        rcases h with h | ⟨im, him, hpos⟩
        · exact Or.inl (by simpa [h0] using h)
        · rcases List.mem_cons.mp him with rfl | him'
          · exact absurd hpos h0
          · exact Or.inr ⟨im, him', hpos⟩

theorem gridCell_ne_none (images : List ChannelImage) (r c : Nat)
    (h : ∃ im ∈ images, im.well_position_y = r ∧ im.well_position_x = c) :
    Mosaic.gridCell images r c ≠ none :=
  gridCell_foldl_ne_none r c images none (Or.inr h)

theorem derefRow_isSome :
    ∀ row : List (Option ChannelImage), (∀ o ∈ row, o ≠ none) →
      ∃ ps, Mosaic.derefRow row = some ps
  | [], _ => ⟨[], rfl⟩
  | none :: rest, h => absurd rfl (h none (List.mem_cons_self _ _))
  | some im :: rest, h => by
      obtain ⟨ps, hps⟩ :=
        derefRow_isSome rest (fun o ho => h o (List.mem_cons_of_mem _ ho))
      exact ⟨im.plane :: ps, by simp [Mosaic.derefRow, hps]⟩

theorem derefGrid_isSome :
    ∀ rows : List (List (Option ChannelImage)),
      (∀ row ∈ rows, ∀ o ∈ row, o ≠ none) →
      ∃ rs, Mosaic.derefGrid rows = some rs
  | [], _ => ⟨[], rfl⟩
  | row :: rest, h => by
      obtain ⟨ps, hps⟩ := derefRow_isSome row (h row (List.mem_cons_self _ _))
      obtain ⟨rs, hrs⟩ :=
        derefGrid_isSome rest (fun rw hrw => h rw (List.mem_cons_of_mem _ hrw))
      exact ⟨ps :: rs, by simp [Mosaic.derefGrid, hps, hrs]⟩

theorem derefRow_of_none :
    ∀ row : List (Option ChannelImage), none ∈ row → Mosaic.derefRow row = none
  | none :: rest, _ => rfl
  | some im :: rest, h => by
      have h' : none ∈ rest := by simpa using h
      simp [Mosaic.derefRow, derefRow_of_none rest h']

theorem derefGrid_of_none :
    ∀ rows : List (List (Option ChannelImage)),
      (∃ row ∈ rows, Mosaic.derefRow row = none) → Mosaic.derefGrid rows = none
  | [], h => by
      obtain ⟨row, hmem, _⟩ := h
      exact absurd hmem (List.not_mem_nil row)
  | row0 :: rest, h => by
      obtain ⟨row, hmem, hrow⟩ := h
      rcases List.mem_cons.mp hmem with rfl | hmem'
      · simp [Mosaic.derefGrid, hrow]
      · rcases hr0 : Mosaic.derefRow row0 with _ | ps
        · simp [Mosaic.derefGrid, hr0]
        · simp [Mosaic.derefGrid, hr0,
            derefGrid_of_none rest ⟨row, hmem', hrow⟩]

/-! ### Claim theorems -/

/-- C1 counterexample: two uploads, each containing only time point 0.  The
collect phase assigns upload 1's time point 0 to a fresh cycle at index 1
instead of merging its images into the cycle at index 0 that was created for
upload 0's identical time point: `cycle_count` is threaded globally and never
looked up by time point (metaconfig/api.py:284-325), so the claim's merging
behaviour does not happen. -/
theorem C1_counterexample :
    collect_cycle_assignments [[0], [0]] = [(0, 0, 0), (1, 0, 1)] ∧
    (1, 0, 1) ∈ collect_cycle_assignments [[0], [0]] ∧
    (1, 0, 0) ∉ collect_cycle_assignments [[0], [0]] := by
  decide

/-- C1 amended: during collect-phase cycle reconciliation the cycle indices
are assigned sequentially — `0, 1, 2, ...` — one fresh cycle per
(upload, distinct time point) pair, in upload order and then in time-point
order within an upload; the indices are therefore monotonically increasing
and pairwise distinct, so a time point that already received a cycle in a
prior upload is given a new cycle again rather than being merged into the
existing one. -/
theorem C1_sequential_cycles (uploadTpoints : List (List Nat)) :
    (collect_cycle_assignments uploadTpoints).map (fun a => a.2.2) =
      List.range
        ((uploadTpoints.map (fun ts => (distinctFirstSeen ts).length)).sum) ∧
    ((collect_cycle_assignments uploadTpoints).map (fun a => a.2.2)).Nodup := by
  have h : (collect_cycle_assignments uploadTpoints).map (fun a => a.2.2) =
      List.range
        ((uploadTpoints.map (fun ts => (distinctFirstSeen ts).length)).sum) := by
    rw [collect_cycle_assignments, collectCyclesGo_map_cycle,
      List.range_eq_range']
  exact ⟨h, by rw [h]; exact List.nodup_range _⟩

/-- C3 counterexample: for the three-image input the claim predicts a square
grid of side `ceil(3/2) = 2` containing all three images; the code's
Python-2 integer division produces a `1 x 1` grid that contains only the
first image. -/
theorem C3_counterexample :
    (Collage.build_image_grid [0, 1, 2]).length = 1 ∧
    some 1 ∉ (Collage.build_image_grid [0, 1, 2]).flatten ∧
    some 2 ∉ (Collage.build_image_grid [0, 1, 2]).flatten := by
  decide

/-- C3 amended: `Collage._build_image_grid` builds a square grid of side
`n / 2` rounded down (the `ceil` acts after Python-2 integer division), fills
its cells in input order — cell `(i, j)` holds input number `i*dim + j` —
and an input image appears in the grid exactly when some index carrying it
is below `dim * dim`; inputs beyond the first `dim * dim` are dropped (so
for `n` in 1, 2, 3, 5 not every image appears). -/
theorem C3_floor_grid {α : Type} (xs : List α) :
    (Collage.build_image_grid xs).length = xs.length / 2 ∧
    (∀ row ∈ Collage.build_image_grid xs, row.length = xs.length / 2) ∧
    (Collage.build_image_grid xs).flatten =
      (List.range ((xs.length / 2) * (xs.length / 2))).map (fun k => xs.get? k) ∧
    (∀ x : α, some x ∈ (Collage.build_image_grid xs).flatten ↔
      ∃ k, k < (xs.length / 2) * (xs.length / 2) ∧ xs.get? k = some x) := by
  have hflat : (Collage.build_image_grid xs).flatten =
      (List.range ((xs.length / 2) * (xs.length / 2))).map (fun k => xs.get? k) :=
    range_grid_flatten (fun k => xs.get? k) (xs.length / 2) (xs.length / 2)
  refine ⟨by simp [Collage.build_image_grid], ?_, hflat, ?_⟩
  · intro row hrow
    obtain ⟨i, _, rfl⟩ := List.mem_map.mp hrow
    simp
  · intro x
    rw [hflat]
    constructor
    · intro hx
      obtain ⟨k, hk, hkx⟩ := List.mem_map.mp hx
      exact ⟨k, List.mem_range.mp hk, hkx⟩
    · rintro ⟨k, hk, hkx⟩
      exact List.mem_map.mpr ⟨k, List.mem_range.mpr hk, hkx⟩

/-- C3 amended witness at a concrete input: four images make a `2 x 2` grid
and the last image is present. -/
theorem C3_amended_witness :
    (Collage.build_image_grid [10, 11, 12, 13]).length = 2 ∧
    some 13 ∈ (Collage.build_image_grid [10, 11, 12, 13]).flatten := by
  refine ⟨(C3_floor_grid [10, 11, 12, 13]).1, ?_⟩
  exact ((C3_floor_grid [10, 11, 12, 13]).2.2.2 13).mpr
    ⟨3, by decide, by decide⟩

/-- C5: in `run_job`, a `MetadataError` raised by the stage-position grid
inference is caught and the layout strategy's outcome is returned instead;
the stage's `MetadataError` itself never becomes the job outcome (any
`MetadataError` in the result can only be the layout strategy's own), and
when the stage step succeeds no fallback occurs. -/
theorem C5_metadata_fallback (msg : String) (layout : Except JobException Nat) (g : Nat) :
    determine_grid_coordinates (.error (.metadataError msg)) layout = layout ∧
    determine_grid_coordinates (.ok g) layout = .ok g ∧
    (∀ m, determine_grid_coordinates (.error (.metadataError msg)) layout =
        .error (.metadataError m) → layout = .error (.metadataError m)) := by
  refine ⟨rfl, rfl, fun m h => ?_⟩
  simpa [determine_grid_coordinates] using h

/-- C5 witness: with the stage-position strategy failing on a concrete
`MetadataError` and the layout strategy succeeding, the job gets the layout
grid; with the stage strategy succeeding, its own grid. -/
theorem C5_witness :
    determine_grid_coordinates
      (.error (.metadataError "microscope stage positions are not available"))
      (.ok 5) = .ok 5 ∧
    determine_grid_coordinates (.ok 3) (.ok 5) = .ok 3 :=
  ⟨(C5_metadata_fallback "microscope stage positions are not available" (.ok 5) 3).1,
   (C5_metadata_fallback "microscope stage positions are not available" (.ok 5) 3).2.1⟩

/-- C8: joining two planes of height `H` and width `W` horizontally with
shim `-dx` yields width `2W - dx` and height `H`; joining them vertically
with shim `-dy` yields height `2H - dy` and width `W` (for overlaps not
exceeding the plane size). -/
theorem C8_stitch_dimensions (a b : PixelPlane) (H W dx dy : Nat)
    (hah : a.height = H) (hbh : b.height = H)
    (haw : a.width = W) (hbw : b.width = W)
    (hdx : dx ≤ W) (hdy : dy ≤ H) :
    (join_horizontal a b (-(dx : Int))).width = 2 * W - dx ∧
    (join_horizontal a b (-(dx : Int))).height = H ∧
    (join_vertical a b (-(dy : Int))).height = 2 * H - dy ∧
    (join_vertical a b (-(dy : Int))).width = W := by
  refine ⟨?_, ?_, ?_, ?_⟩
  · simp only [join_horizontal, haw, hbw]
    omega
  · simp [join_horizontal, hah, hbh]
  · simp only [join_vertical, hah, hbh]
    omega
  · simp [join_vertical, haw, hbw]

/-- C8 witness: two concrete 5x7 planes joined with overlaps 2 and 3. -/
theorem C8_witness :
    (join_horizontal { height := 5, width := 7, pix := fun _ _ => 1 }
      { height := 5, width := 7, pix := fun _ _ => 2 } (-(2 : Int))).width = 12 ∧
    (join_vertical { height := 5, width := 7, pix := fun _ _ => 1 }
      { height := 5, width := 7, pix := fun _ _ => 2 } (-(3 : Int))).height = 7 := by
  have h := C8_stitch_dimensions { height := 5, width := 7, pix := fun _ _ => 1 }
    { height := 5, width := 7, pix := fun _ _ => 2 } 5 7 2 3
    rfl rfl rfl rfl (by decide) (by decide)
  exact ⟨h.1, h.2.2.1⟩

/-- A concrete tile row in tile group 0. -/
def tileG0 : PyramidTileFile :=
  { name := "tile.jpg", group := 0, level := 2, row := 3, column := 4,
    channel_layer_id := 7 }

/-- The same logical tile, written under tile group 1. -/
def tileG1 : PyramidTileFile :=
  { name := "tile.jpg", group := 1, level := 2, row := 3, column := 4,
    channel_layer_id := 7 }

/-- C4 counterexample: two `put` calls with the same
(level, row, column, channel-layer) key but different `group` values write
to two different storage paths (`location` embeds the group,
models/file.py:652-657), so after the second write the first tile's bytes
are still stored and readable — the later write did not replace the earlier
one, and both tiles are observable in storage. -/
theorem C4_counterexample :
    tileG0.key = tileG1.key ∧
    tileG0.group ≠ tileG1.group ∧
    tileG0.location "layer" ≠ tileG1.location "layer" ∧
    PyramidTileFile.get "layer" tileG0
      (PyramidTileFile.put "layer" tileG1
        (PyramidTileFile.put "layer" tileG0 [] 100) 200) = some 100 ∧
    PyramidTileFile.get "layer" tileG1
      (PyramidTileFile.put "layer" tileG1
        (PyramidTileFile.put "layer" tileG0 [] 100) 200) = some 200 := by
  refine ⟨rfl, by decide, by decide, rfl, rfl⟩

/-- C4 amended: the database's unique constraint on
(level, row, column, channel_layer_id) guarantees that no two rows of
`pyramid_tile_files` share that key — regardless of `group`, at most one
tile row per key exists, so at most one tile per key is reachable through
`get`.  However, `put` writes to a `group`-dependent path: writing the same
key under two different groups targets two distinct paths, and the later
write leaves the earlier file intact (it must be deleted explicitly). -/
theorem C4_unique_key_storage (base : String) (rows : List PyramidTileFile)
    (hconstraint : uniqueKeyConstraint rows)
    (t1 t2 : PyramidTileFile) (fs : List (TilePath × Nat)) (d1 d2 : Nat)
    (hgroup : t1.group ≠ t2.group) :
    (∀ r1 ∈ rows, ∀ r2 ∈ rows, r1.key = r2.key → r1 = r2) ∧
    t1.location base ≠ t2.location base ∧
    PyramidTileFile.get base t1
      (PyramidTileFile.put base t2 (PyramidTileFile.put base t1 fs d1) d2) =
      some d1 := by
  have hloc : t1.location base ≠ t2.location base := by
    intro h
    exact hgroup (congrArg TilePath.tileGroup h)
  refine ⟨pairwise_key_unique rows hconstraint, hloc, ?_⟩
  show fsRead (fsWrite (fsWrite fs (t1.location base) d1) (t2.location base) d2)
      (t1.location base) = some d1
  rw [fsRead_write_other _ _ _ _ hloc, fsRead_write_self]

/-- C4 amended witness at concrete rows and writes. -/
theorem C4_amended_witness :
    tileG0 = tileG0 ∧
    PyramidTileFile.get "layer" tileG0
      (PyramidTileFile.put "layer" tileG1
        (PyramidTileFile.put "layer" tileG0 [] 100) 200) = some 100 := by
  have h := C4_unique_key_storage "layer" [tileG0]
    (List.pairwise_singleton _ _) tileG0 tileG1 [] 100 200 (by decide)
  exact ⟨h.1 tileG0 (List.mem_singleton_self _) tileG0
    (List.mem_singleton_self _) rfl, h.2.2⟩

/-- C6 counterexample: with perfectly valid displacements `dx = dy = 0`,
`Mosaic.create` on an empty image list still fails with `ValueError`
(numpy's empty-reduction error raised by `np.max(coordinates, axis=0)` in
`_build_image_grid`), so "fails with ValueError if and only if dx or dy is
not a non-negative integer" is false in the only-if direction. -/
theorem C6_counterexample :
    validDisplacement (PyVal.intVal 0) = true ∧
    Mosaic.create [] (PyVal.intVal 0) (PyVal.intVal 0) =
      .error (.valueError
        "zero-size array to reduction operation maximum which has no identity") :=
  ⟨rfl, rfl⟩

/-- C6 amended: the shared argument check of `Mosaic.create` and
`Collage.create_from_images` passes exactly when both `dx` and `dy` are
non-negative Python integers; when it fails, the failure is a `ValueError`
and both creation functions fail with exactly that error before doing
anything else.  (The converse — that a `ValueError` implies bad
displacements — does not hold: see the counterexample.) -/
theorem C6_displacement_check (dx dy : PyVal) (images : List ChannelImage)
    (cimages : List CollageImage) :
    (checkDisplacements dx dy = .ok () ↔
      validDisplacement dx = true ∧ validDisplacement dy = true) ∧
    (validDisplacement dx = true ↔ ∃ n : Int, dx = .intVal n ∧ 0 ≤ n) ∧
    (∀ e, checkDisplacements dx dy = .error e →
      (∃ m, e = .valueError m) ∧
      Mosaic.create images dx dy = .error e ∧
      Collage.create_from_images cimages dx dy = ([], .error e)) := by
  refine ⟨?_, ?_, ?_⟩
  · cases hvx : validDisplacement dx <;> cases hvy : validDisplacement dy <;>
      simp [checkDisplacements, hvx, hvy]
  · cases dx with
    | intVal n => simp [validDisplacement]
    | nonInt => simp [validDisplacement]
  · intro e he
    have hval : ∃ m, e = StitchError.valueError m := by
      cases hvx : validDisplacement dx <;> cases hvy : validDisplacement dy <;>
        simp [checkDisplacements, hvx, hvy] at he
      · exact ⟨_, he.symm⟩
      · exact ⟨_, he.symm⟩
      · exact ⟨_, he.symm⟩
    refine ⟨hval, ?_, ?_⟩
    · rw [Mosaic.create.eq_def, he]
    · rw [Collage.create_from_images.eq_def, he]

/-- C6 amended witness: a valid pair passes the check; a non-integer `dx`
makes `Mosaic.create` fail with the `dx` `ValueError`. -/
theorem C6_amended_witness :
    checkDisplacements (PyVal.intVal 2) (PyVal.intVal 0) = .ok () ∧
    Mosaic.create [] PyVal.nonInt (PyVal.intVal 0) =
      .error (.valueError "\"dx\" has to be a positive integer value") := by
  refine ⟨?_, ?_⟩
  · exact (C6_displacement_check (PyVal.intVal 2) (PyVal.intVal 0) [] []).1.mpr
      ⟨rfl, rfl⟩
  · exact ((C6_displacement_check PyVal.nonInt (PyVal.intVal 0) [] []).2.2 _
      rfl).2.1

/-- C7: with valid displacements, `Collage.create_from_images` raises
`MetadataError` ("same cycle") when the images span more than one cycle,
`MetadataError` ("same channel") when they span one cycle but more than one
channel, and `TypeError` when cycle and channel agree but the element types
differ — in that order, and in each case with an empty composition trace:
no padding, spacer creation or merging has occurred. -/
theorem C7_consistency_checks (images : List CollageImage) (dx dy : PyVal)
    (hdx : validDisplacement dx = true) (hdy : validDisplacement dy = true) :
    (1 < ((images.map (fun im => im.cycle_name)).dedup).length →
      Collage.create_from_images images dx dy =
        ([], .error (.metadataError "All images must be of the same cycle"))) ∧
    (((images.map (fun im => im.cycle_name)).dedup).length ≤ 1 →
      1 < ((images.map (fun im => im.channel_name)).dedup).length →
      Collage.create_from_images images dx dy =
        ([], .error (.metadataError "All images must be of the same channel"))) ∧
    (((images.map (fun im => im.cycle_name)).dedup).length ≤ 1 →
      ((images.map (fun im => im.channel_name)).dedup).length ≤ 1 →
      1 < ((images.map (fun im => im.dtype)).dedup).length →
      Collage.create_from_images images dx dy =
        ([], .error (.typeError "All images must have the same type"))) := by
  have hc : checkDisplacements dx dy = .ok () := by
    simp [checkDisplacements, hdx, hdy]
  refine ⟨fun h1 => ?_, fun h1 h2 => ?_, fun h1 h2 h3 => ?_⟩
  · rw [Collage.create_from_images.eq_def, hc]
    simp [h1]
  · rw [Collage.create_from_images.eq_def, hc]
    have h1' : ¬ 1 < ((images.map (fun im => im.cycle_name)).dedup).length := by
      omega
    simp [h1', h2]
  · rw [Collage.create_from_images.eq_def, hc]
    have h1' : ¬ 1 < ((images.map (fun im => im.cycle_name)).dedup).length := by
      omega
    have h2' : ¬ 1 < ((images.map (fun im => im.channel_name)).dedup).length := by
      omega
    simp [h1', h2', h3]

/-- C7 witness: the three failure modes at concrete two-image inputs. -/
theorem C7_witness :
    Collage.create_from_images
      [{ cycle_name := "c0", channel_name := "ch", dtype := "uint16",
         height := 10, width := 10 },
       { cycle_name := "c1", channel_name := "ch", dtype := "uint16",
         height := 10, width := 10 }]
      (PyVal.intVal 100) (PyVal.intVal 100) =
      ([], .error (.metadataError "All images must be of the same cycle")) ∧
    Collage.create_from_images
      [{ cycle_name := "c0", channel_name := "ch0", dtype := "uint16",
         height := 10, width := 10 },
       { cycle_name := "c0", channel_name := "ch1", dtype := "uint16",
         height := 10, width := 10 }]
      (PyVal.intVal 100) (PyVal.intVal 100) =
      ([], .error (.metadataError "All images must be of the same channel")) ∧
    Collage.create_from_images
      [{ cycle_name := "c0", channel_name := "ch", dtype := "uint8",
         height := 10, width := 10 },
       { cycle_name := "c0", channel_name := "ch", dtype := "uint16",
         height := 10, width := 10 }]
      (PyVal.intVal 100) (PyVal.intVal 100) =
      ([], .error (.typeError "All images must have the same type")) := by
  refine ⟨(C7_consistency_checks _ _ _ ?_ ?_).1 (by decide),
    (C7_consistency_checks _ _ _ ?_ ?_).2.1 (by decide) (by decide),
    (C7_consistency_checks _ _ _ ?_ ?_).2.2 (by decide) (by decide) (by decide)⟩ <;> rfl

/-- C2: for any experiment, `create_job_descriptions` (with an accepted
format) produces exactly one run description per upload in order — the i-th
description has id `i+1` and that upload's raw files as inputs — and a
single collect description whose input file set is a permutation of the
union of the run descriptions' declared outputs, duplicate-free whenever the
run outputs themselves are pairwise distinct paths. -/
theorem C2_partition (uploads : List Upload) (cyclesDir : String)
    (hnodup : (((job_descriptions_body uploads cyclesDir).1).flatMap
        RunDescription.outputs).Nodup) :
    (∀ fmt supported, fmt = "default" →
      create_job_descriptions fmt supported uploads cyclesDir =
        .ok (job_descriptions_body uploads cyclesDir)) ∧
    ((job_descriptions_body uploads cyclesDir).1).length = uploads.length ∧
    (∀ i : Nat, (((job_descriptions_body uploads cyclesDir).1)[i]?).map
        (fun r => (r.id, r.uploaded_image_files)) =
      (uploads[i]?).map (fun u =>
        (i + 1, u.image_files.map (fun f => pjoin u.image_dir f)))) ∧
    (CollectDescription.inputs
        (job_descriptions_body uploads cyclesDir).2).Perm
      (((job_descriptions_body uploads cyclesDir).1).flatMap
        RunDescription.outputs) ∧
    (CollectDescription.inputs
        (job_descriptions_body uploads cyclesDir).2).Nodup := by
  have houts : ((job_descriptions_body uploads cyclesDir).1).flatMap
      RunDescription.outputs =
      uploads.flatMap (fun u =>
        [pjoin u.dir u.image_metadata_file, pjoin u.dir u.image_mapper_file]) :=
    runs_flatMap_outputs uploads 0
  have hperm : (CollectDescription.inputs
      (job_descriptions_body uploads cyclesDir).2).Perm
      (((job_descriptions_body uploads cyclesDir).1).flatMap
        RunDescription.outputs) := by
    rw [houts]
    exact map_pair_perm_flatMap _ _ uploads
  refine ⟨?_, ?_, ?_, hperm, hperm.symm.nodup hnodup⟩
  · intro fmt supported hf
    subst hf
    simp [create_job_descriptions]
  · simp [job_descriptions_body]
  · intro i
    simp only [job_descriptions_body, List.enum, List.getElem?_map,
      List.getElem?_enumFrom, Option.map_map]
    cases h : uploads[i]? with
    | none => rfl
    | some u => simp [mkRunDescription, Function.comp]

/-- A concrete first upload. -/
def uploadA : Upload :=
  { dir := "uploads/u0", image_dir := "uploads/u0/images",
    additional_dir := "uploads/u0/additional", ome_xml_dir := "uploads/u0/ome",
    image_files := ["a1.tif", "a2.tif"], additional_files := [],
    ome_xml_files := ["a1.ome.xml"],
    image_metadata_file := "image_metadata.xml",
    image_mapper_file := "image_mapper.json" }

/-- A concrete second upload. -/
def uploadB : Upload :=
  { dir := "uploads/u1", image_dir := "uploads/u1/images",
    additional_dir := "uploads/u1/additional", ome_xml_dir := "uploads/u1/ome",
    image_files := ["b1.tif"], additional_files := ["meta.csv"],
    ome_xml_files := [],
    image_metadata_file := "image_metadata.xml",
    image_mapper_file := "image_mapper.json" }

/-- C2 witness at a concrete two-upload experiment. -/
theorem C2_witness :
    create_job_descriptions "default" [] [uploadA, uploadB] "cycles" =
      .ok (job_descriptions_body [uploadA, uploadB] "cycles") ∧
    ((job_descriptions_body [uploadA, uploadB] "cycles").1).length = 2 ∧
    (CollectDescription.inputs
      (job_descriptions_body [uploadA, uploadB] "cycles").2).Nodup := by
  have h := C2_partition [uploadA, uploadB] "cycles" (by decide)
  exact ⟨h.1 "default" [] rfl, h.2.1, h.2.2.2.2⟩

/-- C9: whenever the collect phase's mapper rewriting succeeds (which
requires every mapper reference of an upload to resolve in each of its
time-point lookup tables), the global mapper is written once per upload, and
the k-th durable write contains exactly the concatenated rewritten entries
of uploads 0 through k — a crash after upload k leaves the persisted mapper
consistent through k. -/
theorem C9_incremental_writes (uploads : List (List Nat × List Nat))
    (es : List (List (Nat × Nat)))
    (h : perUploadRewrites 0 uploads = some es) :
    collect_mapper_writes uploads = some (prefixJoins es) ∧
    (prefixJoins es).length = uploads.length ∧
    (∀ k, k < uploads.length →
      (prefixJoins es)[k]? = some ((es.take (k + 1)).flatten)) := by
  have hlen := perUploadRewrites_length uploads 0 es h
  have hgo := collectMapperWritesGo_eq uploads 0 [] es h
  refine ⟨?_, ?_, ?_⟩
  · rw [collect_mapper_writes, hgo]
    simp
  · rw [prefixJoins_length, hlen]
  · intro k hk
    exact prefixJoins_getElem? es k (by rw [hlen]; exact hk)

/-- C9 witness: two uploads — the first with two images at time point 0 and
two mapper entries, the second with one image at time point 1 and one
mapper entry — produce exactly two durable writes, the first holding upload
0's rewritten entries and the second both uploads' entries. -/
theorem C9_witness :
    collect_mapper_writes [([0, 0], [0, 1]), ([1], [0])] =
      some [[(0, 0), (0, 1)], [(0, 0), (0, 1), (1, 0)]] := by
  have h := (C9_incremental_writes [([0, 0], [0, 1]), ([1], [0])]
    [[(0, 0), (0, 1)], [(1, 0)]] (by decide)).1
  exact h.trans (by decide)

/-- C10: with valid displacements and a non-empty image list, if every grid
position up to the recorded maxima is occupied by some image then
`Mosaic.create` succeeds — every cell dereferenced during stitching holds an
image; and whenever some position inside those bounds is unoccupied
(an empty grid cell), `Mosaic.create` fails with `AttributeError` instead
of producing a mosaic. -/
theorem C10_dense_grid_safety (images : List ChannelImage) (dx dy : PyVal)
    (hdx : validDisplacement dx = true) (hdy : validDisplacement dy = true)
    (hne : images ≠ []) :
    ((∀ r c, r ≤ Mosaic.maxRow images → c ≤ Mosaic.maxCol images →
        ∃ im ∈ images, im.well_position_y = r ∧ im.well_position_x = c) →
      isOkResult (Mosaic.create images dx dy) = true) ∧
    ((∃ r c, r ≤ Mosaic.maxRow images ∧ c ≤ Mosaic.maxCol images ∧
        Mosaic.gridCell images r c = none) →
      Mosaic.create images dx dy = .error .attributeError) := by
  have hc : checkDisplacements dx dy = .ok () := by
    simp [checkDisplacements, hdx, hdy]
  obtain ⟨im0, rest, rfl⟩ : ∃ a l, images = a :: l := by
    cases images with
    | nil => exact absurd rfl hne
    | cons a l => exact ⟨a, l, rfl⟩
  constructor
  · intro hdense
    have hall : ∀ row ∈ Mosaic.buildGrid (im0 :: rest), ∀ o ∈ row, o ≠ none := by
      intro row hrow o ho
      simp only [Mosaic.buildGrid, List.mem_map] at hrow
      obtain ⟨r, hr, rfl⟩ := hrow
      simp only [List.mem_map] at ho
      obtain ⟨c, hcc, rfl⟩ := ho
      exact gridCell_ne_none _ _ _
        (hdense r c (Nat.lt_succ_iff.mp (List.mem_range.mp hr))
          (Nat.lt_succ_iff.mp (List.mem_range.mp hcc)))
    obtain ⟨rs, hrs⟩ := derefGrid_isSome _ hall
    rw [Mosaic.create.eq_def, hc, hrs]
    rfl
  · rintro ⟨r, c, hr, hcc, hcell⟩
    have hrow : Mosaic.derefRow
        ((List.range (Mosaic.maxCol (im0 :: rest) + 1)).map
          (fun c2 => Mosaic.gridCell (im0 :: rest) r c2)) = none := by
      apply derefRow_of_none
      have hmem : Mosaic.gridCell (im0 :: rest) r c ∈
          (List.range (Mosaic.maxCol (im0 :: rest) + 1)).map
            (fun c2 => Mosaic.gridCell (im0 :: rest) r c2) :=
        List.mem_map_of_mem _ (List.mem_range.mpr (Nat.lt_succ_of_le hcc))
      rwa [hcell] at hmem
    have hgridnone :
        Mosaic.derefGrid (Mosaic.buildGrid (im0 :: rest)) = none := by
      apply derefGrid_of_none
      refine ⟨_, ?_, hrow⟩
      simp only [Mosaic.buildGrid]
      exact List.mem_map_of_mem _ (List.mem_range.mpr (Nat.lt_succ_of_le hr))
    rw [Mosaic.create.eq_def, hc, hgridnone]

/-- A concrete uniform 8x8 pixel plane. -/
def plane8 : PixelPlane := { height := 8, width := 8, pix := fun _ _ => 1 }

/-- A dense 2x2 acquisition: all four grid positions occupied. -/
def imgsDense : List ChannelImage :=
  [{ well_position_y := 0, well_position_x := 0, plane := plane8 },
   { well_position_y := 0, well_position_x := 1, plane := plane8 },
   { well_position_y := 1, well_position_x := 0, plane := plane8 },
   { well_position_y := 1, well_position_x := 1, plane := plane8 }]

/-- A gapped acquisition: positions (0,0) and (1,1) occupied, (0,1) and
(1,0) empty. -/
def imgsGap : List ChannelImage :=
  [{ well_position_y := 0, well_position_x := 0, plane := plane8 },
   { well_position_y := 1, well_position_x := 1, plane := plane8 }]

/-- C10 witness: the dense 2x2 input stitches successfully; the gapped input
fails with `AttributeError`. -/
theorem C10_witness :
    isOkResult (Mosaic.create imgsDense (PyVal.intVal 0) (PyVal.intVal 0)) =
      true ∧
    Mosaic.create imgsGap (PyVal.intVal 0) (PyVal.intVal 0) =
      .error .attributeError := by
  constructor
  · refine (C10_dense_grid_safety imgsDense (PyVal.intVal 0) (PyVal.intVal 0) rfl rfl
      (by simp [imgsDense])).1 ?_
    intro r c hr hcc
    have hr' : r ≤ 1 := by
      simpa [Mosaic.maxRow, imgsDense] using hr
    have hcc' : c ≤ 1 := by
      simpa [Mosaic.maxCol, imgsDense] using hcc
    interval_cases r <;> interval_cases c
    · exact ⟨{ well_position_y := 0, well_position_x := 0, plane := plane8 },
        by simp [imgsDense], rfl, rfl⟩
    · exact ⟨{ well_position_y := 0, well_position_x := 1, plane := plane8 },
        by simp [imgsDense], rfl, rfl⟩
    · exact ⟨{ well_position_y := 1, well_position_x := 0, plane := plane8 },
        by simp [imgsDense], rfl, rfl⟩
    · exact ⟨{ well_position_y := 1, well_position_x := 1, plane := plane8 },
        by simp [imgsDense], rfl, rfl⟩
  · refine (C10_dense_grid_safety imgsGap (PyVal.intVal 0) (PyVal.intVal 0) rfl rfl
      (by simp [imgsGap])).2 ⟨0, 1, ?_, ?_, ?_⟩
    · exact Nat.zero_le _
    · show 1 ≤ Mosaic.maxCol imgsGap
      decide
    · rfl
